import Mathlib

/-!
Shallow embedding of `downloader.js` (the `Downloader` class: `download`,
`stop`, `cleanup`) and proofs of the specification claims about it.

Bytes are modelled as natural numbers, a chunk of the response stream as a
byte list.  The session state mirrors the three fields set in the
constructor (`controller`, `isPaused`, `blobUrl`); `AbortController`
instances and blob-URL handles are identified by allocation numbers drawn
from monotone counters, so a "fresh" handle is one equal to the current
counter value (every previously allocated handle is smaller).  Callback
invocations and resource operations are recorded in an event trace.
-/

namespace DownloaderJS

/-- One incrementally received slice of the response body. -/
abbrev Chunk := List Nat

/-- A JavaScript number as far as this code observes one: NaN, positive or
negative Infinity, or an exact rational.  Finite values are exact
rationals: float64 rounding is not modelled, nor are the overflow of
finite decimal literals beyond ~1e308 to Infinity and the underflow of
nonzero literals below ~1e-324 to 0 — the claims settled here do not
depend on those regimes. -/
inductive JsNum where
  | nan : JsNum
  | inf : JsNum
  | negInf : JsNum
  | num : ℚ → JsNum
deriving DecidableEq

/-- JS truthiness of a number: `NaN`, `0` and `-0` are falsy, everything
else — including the infinities — is truthy (`if (contentLength)`). -/
def JsNum.truthy : JsNum → Bool
  | .nan => false
  | .inf => true
  | .negInf => true
  | .num q => q ≠ 0

/-- `Math.round` for the nonnegative/ordinary range: floor of `q + 1/2`
(exact-arithmetic model of the percent computation). -/
def jsRound (q : ℚ) : ℤ := ⌊q + 1 / 2⌋

/-- A JavaScript error value: `name` (e.g. `"AbortError"`) and `message`. -/
structure JsError where
  name : String
  message : String
deriving DecidableEq

/-- Outcome of reading the response body stream: either the reader signals
done after delivering `chunks`, or a read rejects with `err` after
delivering `chunks`. -/
inductive BodyOutcome where
  | complete (chunks : List Chunk)
  | failed (chunks : List Chunk) (err : JsError)

/-- The observable parts of a `fetch` response used by `download`. -/
structure Response where
  ok : Bool
  status : Nat
  contentType : Option String
  contentLength : Option String
  body : BodyOutcome

/-- Outcome of the `fetch` call itself: rejection with an error (a network
failure, or an `AbortError` when the signal fired before/while fetching),
or a response. -/
inductive FetchOutcome where
  | netError (err : JsError)
  | response (resp : Response)

/-- Which of the optional callbacks were supplied as functions. -/
structure Options where
  started : Bool
  progress : Bool
  success : Bool
  failed : Bool

/-- Session state: the three fields of the `Downloader` constructor.
`controller` holds the active `AbortController`'s allocation number,
`blobUrl` the live blob-URL handle's allocation number. -/
structure Downloader where
  controller : Option Nat
  isPaused : Bool
  blobUrl : Option Nat
deriving DecidableEq

/-- Session state plus the allocation counters for controllers and blob
handles (the environment's notion of freshness). -/
structure World where
  dl : Downloader
  nextToken : Nat
  nextHandle : Nat
deriving DecidableEq

/-- Observable events of one operation, in order: callback invocations and
resource allocation/release. -/
inductive Event where
  | started
  | progress (percent : ℤ)
  | abortSignal (token : Nat)
  | revoke (handle : Nat)
  | createHandle (handle : Nat) (bytes : List Nat) (contentType : Option String)
  | success (handle : Nat) (contentType : Option String)
  | failed (kind : String) (message : String)
deriving DecidableEq

/-- The characters ECMAScript `ToNumber` strips from both ends of a
string (`StrWhiteSpace`: WhiteSpace and LineTerminator characters). -/
def isStrWhiteSpace (c : Char) : Bool :=
  c = ' ' || c = '\t' || c = '\n' || c = '\r' || c.toNat = 0x0B || c.toNat = 0x0C ||
  c.toNat = 0xA0 || c.toNat = 0x1680 || (0x2000 ≤ c.toNat && c.toNat ≤ 0x200A) ||
  c.toNat = 0x2028 || c.toNat = 0x2029 || c.toNat = 0x202F || c.toNat = 0x205F ||
  c.toNat = 0x3000 || c.toNat = 0xFEFF

/-- The numeric value of a run of decimal digits. -/
def digitsVal (ds : List Char) : Nat :=
  ds.foldl (fun n c => n * 10 + (c.toNat - 48)) 0

/-- The numeric value of one digit in a base-`b` integer literal
(`0`–`9`, `a`–`f`, `A`–`F`). -/
def hexDigitVal (c : Char) : Nat :=
  if c.isDigit then c.toNat - 48
  else if 'a' ≤ c && c ≤ 'f' then c.toNat - 87
  else c.toNat - 55

/-- Whether `c` is a digit of a base-`b` (2, 8 or 16) integer literal. -/
def isRadixDigit (b : Nat) (c : Char) : Bool :=
  if b = 16 then c.isDigit || ('a' ≤ c && c ≤ 'f') || ('A' ≤ c && c ≤ 'F')
  else if b = 8 then '0' ≤ c && c ≤ '7'
  else c = '0' || c = '1'

/-- The numeric value of a run of base-`b` digits. -/
def radixVal (b : Nat) (ds : List Char) : Nat :=
  ds.foldl (fun n c => n * b + hexDigitVal c) 0

/-- The magnitude a string numeric literal denotes: `Infinity` or an
exact finite rational. -/
inductive JsMagnitude where
  | inf
  | fin (q : ℚ)

/-- `m × 10^e` as an exact rational (the value of a decimal literal with
combined mantissa `m` and decimal exponent `e`). -/
def decScale (m : Nat) (e : ℤ) : ℚ :=
  if 0 ≤ e then ((m * 10 ^ e.toNat : ℕ) : ℚ)
  else Rat.divInt (m : ℤ) ((10 ^ (-e).toNat : ℕ) : ℤ)

/-- Parses `ExponentPart?` against the whole remaining input: an empty
remainder denotes exponent 0, otherwise `e`/`E`, an optional sign and at
least one decimal digit consuming everything; `none` when the remainder
matches neither (the literal is not a number). -/
def parseExponent : List Char → Option ℤ
  | [] => some 0
  | e :: rest =>
    if e = 'e' || e = 'E' then
      let (neg, rest') :=
        match rest with
        | '+' :: r => (false, r)
        | '-' :: r => (true, r)
        | r => (false, r)
      let ds := rest'.takeWhile Char.isDigit
      let tail := rest'.dropWhile Char.isDigit
      if ds = [] || tail ≠ [] then none
      else some (if neg then -(digitsVal ds : ℤ) else (digitsVal ds : ℤ))
    else none

/-- Parses `StrUnsignedDecimalLiteral` against the whole input:
`Infinity`, or decimal digits with an optional fraction and exponent, or
a fraction-only literal (`.5`, `.5e1`). -/
def parseUnsignedDec (cs : List Char) : Option JsMagnitude :=
  if cs = "Infinity".toList then some .inf
  else
    let intDs := cs.takeWhile Char.isDigit
    let rest := cs.dropWhile Char.isDigit
    match rest with
    | '.' :: rest' =>
      let fracDs := rest'.takeWhile Char.isDigit
      let rest'' := rest'.dropWhile Char.isDigit
      if intDs = [] && fracDs = [] then none
      else
        match parseExponent rest'' with
        | some e =>
          some (.fin (decScale (digitsVal (intDs ++ fracDs)) (e - fracDs.length)))
        | none => none
    | _ =>
      if intDs = [] then none
      else
        match parseExponent rest with
        | some e => some (.fin (decScale (digitsVal intDs) e))
        | none => none

/-- Parses `StrDecimalLiteral`: an optional sign (never permitted on the
non-decimal forms) followed by an unsigned decimal literal; the flag is
whether the literal is negated. -/
def parseSignedDec (cs : List Char) : Option (Bool × JsMagnitude) :=
  match cs with
  | '+' :: rest => (parseUnsignedDec rest).map (fun m => (false, m))
  | '-' :: rest => (parseUnsignedDec rest).map (fun m => (true, m))
  | _ => (parseUnsignedDec cs).map (fun m => (false, m))

/-- Parses `NonDecimalIntegerLiteral` against the whole input: `0x`/`0X`,
`0o`/`0O` or `0b`/`0B` followed by at least one digit of that radix. -/
def parseNonDec (cs : List Char) : Option JsMagnitude :=
  match cs with
  | '0' :: p :: rest =>
    let b : Nat :=
      if p = 'x' || p = 'X' then 16
      else if p = 'o' || p = 'O' then 8
      else if p = 'b' || p = 'B' then 2
      else 0
    if b = 0 then none
    else if rest ≠ [] && rest.all (isRadixDigit b) then
      some (.fin ((radixVal b rest : ℕ) : ℚ))
    else none
  | _ => none

/-- ECMAScript `ToNumber` applied to a string (`StringNumericLiteral`):
trim `StrWhiteSpace` from both ends; an empty remainder is `0`; otherwise
a signed decimal literal (with optional fraction, exponent or `Infinity`)
or an unsigned hex/octal/binary literal yields its exact value, and
anything else is `NaN`. -/
def strToNumber (s : String) : JsNum :=
  let cs :=
    ((s.toList.dropWhile isStrWhiteSpace).reverse.dropWhile isStrWhiteSpace).reverse
  if cs = [] then .num 0
  else
    match parseSignedDec cs with
    | some (neg, .inf) => if neg then .negInf else .inf
    | some (neg, .fin q) => .num (if neg then -q else q)
    | none =>
      match parseNonDec cs with
      | some (.fin q) => .num q
      | some .inf => .nan
      | none => .nan

/-- Numeric coercion of the Content-Length header, as JS unary plus on
the result of `headers.get`: `null` (absent header) coerces to `0`, a
string via `ToNumber`. -/
def coerceCL : Option String → JsNum
  | none => .num 0
  | some s => strToNumber s

/-- `Math.round((receivedLength / contentLength) * 100)` for a truthy
`contentLength`: an ordinary rounded ratio for a finite total; for a total
of `±Infinity` the ratio is `±0`, so the rounded percent is `0`.  (The
`nan` case is arbitrary: `NaN` is falsy, so the guard never lets it
through.) -/
def chunkPercent (cl : JsNum) (received : Nat) : ℤ :=
  match cl with
  | .num q => jsRound (((received : ℚ) / q) * 100)
  | .inf => jsRound 0
  | .negInf => jsRound 0
  | .nan => jsRound 0

/-- The body of the `while (true)` read loop: for each chunk, push it,
add its length to `receivedLength`, and, when `contentLength` is truthy,
compute `percent` and invoke the progress callback when supplied.  Returns
the events emitted, given the cumulative bytes received so far. -/
def readLoop (opts : Options) (cl : JsNum) : List Chunk → Nat → List Event
  | [], _ => []
  | c :: rest, received =>
    let received' := received + c.length
    (if cl.truthy ∧ opts.progress then
       [Event.progress (chunkPercent cl received')]
     else []) ++ readLoop opts cl rest received'

/-- `Uint8Array.prototype.set`: overwrite `buf` with `chunk` starting at
`pos` (in the source, `pos + chunk.length ≤ buf.length` always holds). -/
def writeAt (buf : List Nat) (pos : Nat) (chunk : List Nat) : List Nat :=
  buf.take pos ++ chunk ++ buf.drop (pos + chunk.length)

/-- The chunk-combining loop: `for (const chunk of chunks) { allChunks.set(chunk, position); position += chunk.length; }`. -/
def assembleLoop : List Chunk → List Nat → Nat → List Nat
  | [], buf, _ => buf
  | c :: rest, buf, pos => assembleLoop rest (writeAt buf pos c) (pos + c.length)

/-- `new Uint8Array(receivedLength)` filled by the combining loop. -/
def assemble (chunks : List Chunk) : List Nat :=
  assembleLoop chunks (List.replicate ((chunks.map List.length).sum) 0) 0

/-- The `catch` block: invoke `failed` (tag `ABORTED` for an `AbortError`,
`ERROR` otherwise) when supplied, then rethrow. -/
def catchEvents (opts : Options) (err : JsError) : List Event :=
  if opts.failed then
    if err.name = "AbortError" then [Event.failed "ABORTED" "Download was stopped"]
    else [Event.failed "ERROR" err.message]
  else []

/-- `Downloader.prototype.download`, as a function of the session world,
the supplied options and the network's behaviour.  Returns the new world,
the event trace, and the settled promise (`ok blobUrl` or the thrown
error). -/
def download (w : World) (opts : Options) (fetch : FetchOutcome) :
    World × List Event × Except JsError Nat :=
  let token := w.nextToken
  let w1 : World :=
    { w with dl := { w.dl with controller := some token }, nextToken := w.nextToken + 1 }
  let startedEvs := if opts.started then [Event.started] else []
  match fetch with
  | .netError err => (w1, startedEvs ++ catchEvents opts err, .error err)
  | .response resp =>
    if resp.ok = false then
      let err : JsError := ⟨"Error", "HTTP error! status: " ++ toString resp.status⟩
      (w1, startedEvs ++ catchEvents opts err, .error err)
    else
      let cl := coerceCL resp.contentLength
      match resp.body with
      | .failed chunks err =>
        (w1, startedEvs ++ readLoop opts cl chunks 0 ++ catchEvents opts err, .error err)
      | .complete chunks =>
        let progEvs := readLoop opts cl chunks 0
        let revokeEvs :=
          match w1.dl.blobUrl with
          | some h => [Event.revoke h]
          | none => []
        let handle := w1.nextHandle
        let createEv := [Event.createHandle handle (assemble chunks) resp.contentType]
        let successEv :=
          if opts.success then [Event.success handle resp.contentType] else []
        let w2 : World :=
          { w1 with
              dl := { w1.dl with blobUrl := some handle }
              nextHandle := w1.nextHandle + 1 }
        (w2, startedEvs ++ progEvs ++ revokeEvs ++ createEv ++ successEv, .ok handle)

/-- `Downloader.prototype.stop`: abort and clear the controller when set,
then revoke and clear the blob URL when set. -/
def stop (d : Downloader) : Downloader × List Event :=
  let (d1, evs1) :=
    match d.controller with
    | some t => ({ d with controller := none }, [Event.abortSignal t])
    | none => (d, ([] : List Event))
  let (d2, evs2) :=
    match d1.blobUrl with
    | some h => ({ d1 with blobUrl := none }, [Event.revoke h])
    | none => (d1, ([] : List Event))
  (d2, evs1 ++ evs2)

/-- `Downloader.prototype.cleanup`: `this.stop()`, then a second
revoke-and-clear of the blob URL when set. -/
def cleanup (d : Downloader) : Downloader × List Event :=
  let (d1, evs1) := stop d
  let (d2, evs2) :=
    match d1.blobUrl with
    | some h => ({ d1 with blobUrl := none }, [Event.revoke h])
    | none => (d1, ([] : List Event))
  (d2, evs1 ++ evs2)

/-- The percent value of a progress event, for extracting the progress
subtrace. -/
def Event.percentOf : Event → Option ℤ
  | .progress p => some p
  | _ => none

/-- The sequence of values passed to the progress callback, in order. -/
def progressValues (evs : List Event) : List ℤ := evs.filterMap Event.percentOf

/-- Whether an event is a `failed`-callback invocation. -/
def Event.isFailedEv : Event → Bool
  | .failed _ _ => true
  | _ => false

/-- Whether an event is a `success`-callback invocation. -/
def Event.isSuccessEv : Event → Bool
  | .success _ _ => true
  | _ => false

/-- Whether an event allocates a payload handle. -/
def Event.isCreateEv : Event → Bool
  | .createHandle _ _ _ => true
  | _ => false

/-- Whether an event releases a payload handle. -/
def Event.isRevokeEv : Event → Bool
  | .revoke _ => true
  | _ => false

/-- The cumulative received lengths after each chunk, starting from `acc`. -/
def cumuls : List Chunk → Nat → List Nat
  | [], _ => []
  | c :: rest, acc => (acc + c.length) :: cumuls rest (acc + c.length)

/-- The chunk list a body outcome delivered before settling. -/
def BodyOutcome.chunksOf : BodyOutcome → List Chunk
  | .complete cs => cs
  | .failed cs _ => cs

/-- The error `download` settles with on each failing network behaviour:
the fetch rejection, the synthesized non-OK-status error, or the body-read
rejection.  `none` when the behaviour is a success. -/
def failureOf : FetchOutcome → Option JsError
  | .netError err => some err
  | .response resp =>
    if resp.ok = false then
      some ⟨"Error", "HTTP error! status: " ++ toString resp.status⟩
    else
      match resp.body with
      | .failed _ err => some err
      | .complete _ => none

/-! ### Helper lemmas -/

lemma length_writeAt (buf chunk : List Nat) (pos : Nat)
    (h : pos + chunk.length ≤ buf.length) :
    (writeAt buf pos chunk).length = buf.length := by
  simp only [writeAt, List.length_append, List.length_take, List.length_drop]
  omega

lemma take_writeAt (buf chunk : List Nat) (pos : Nat)
    (h : pos + chunk.length ≤ buf.length) :
    (writeAt buf pos chunk).take (pos + chunk.length) = buf.take pos ++ chunk := by
  have hlen : (buf.take pos).length = pos := by
    simp only [List.length_take]
    omega
  calc (writeAt buf pos chunk).take (pos + chunk.length)
      = (buf.take pos ++ (chunk ++ buf.drop (pos + chunk.length))).take
          ((buf.take pos).length + chunk.length) := by
        rw [writeAt, hlen, List.append_assoc]
    _ = buf.take pos ++ (chunk ++ buf.drop (pos + chunk.length)).take chunk.length := by
        rw [List.take_append]
    _ = buf.take pos ++ chunk := by
        rw [List.take_append_of_le_length (le_refl _), List.take_length]

lemma drop_writeAt (buf chunk : List Nat) (pos k : Nat)
    (h : pos + chunk.length ≤ buf.length) :
    (writeAt buf pos chunk).drop (pos + chunk.length + k) =
      buf.drop (pos + chunk.length + k) := by
  have hlen : (buf.take pos ++ chunk).length = pos + chunk.length := by
    simp only [List.length_append, List.length_take]
    omega
  calc (writeAt buf pos chunk).drop (pos + chunk.length + k)
      = ((buf.take pos ++ chunk) ++ buf.drop (pos + chunk.length)).drop
          ((buf.take pos ++ chunk).length + k) := by
        rw [writeAt, hlen, List.append_assoc]
    _ = (buf.drop (pos + chunk.length)).drop k := by
        rw [List.drop_append]
    _ = buf.drop (pos + chunk.length + k) := by
        rw [List.drop_drop]

/-- The combining loop writes the chunks, contiguously and in order,
into the slots `pos, pos+1, …` of the buffer, leaving the rest alone. -/
lemma assembleLoop_eq (chunks : List Chunk) :
    ∀ (buf : List Nat) (pos : Nat), pos + (chunks.map List.length).sum ≤ buf.length →
      assembleLoop chunks buf pos =
        buf.take pos ++ chunks.flatten ++ buf.drop (pos + (chunks.map List.length).sum) := by
  induction chunks with
  | nil =>
    intro buf pos h
    simp [assembleLoop, List.take_append_drop]
  | cons c rest ih =>
    intro buf pos h
    have hsums : (List.map List.length (c :: rest)).sum = c.length + (rest.map List.length).sum := by
      simp
    have hc : pos + c.length ≤ buf.length := by omega
    have hrest : (pos + c.length) + (rest.map List.length).sum ≤ (writeAt buf pos c).length := by
      rw [length_writeAt buf c pos hc]
      omega
    calc assembleLoop (c :: rest) buf pos
        = assembleLoop rest (writeAt buf pos c) (pos + c.length) := rfl
      _ = (writeAt buf pos c).take (pos + c.length) ++ rest.flatten ++
            (writeAt buf pos c).drop ((pos + c.length) + (rest.map List.length).sum) :=
          ih (writeAt buf pos c) (pos + c.length) hrest
      _ = (buf.take pos ++ c) ++ rest.flatten ++
            buf.drop ((pos + c.length) + (rest.map List.length).sum) := by
          rw [take_writeAt buf c pos hc, drop_writeAt buf c pos _ hc]
      _ = buf.take pos ++ (c :: rest).flatten ++
            buf.drop (pos + (List.map List.length (c :: rest)).sum) := by
          rw [List.flatten_cons, hsums]
          simp [List.append_assoc, Nat.add_assoc]

/-- The assembled `Uint8Array` holds exactly the concatenation of the
chunks in receipt order. -/
lemma assemble_eq_flatten (chunks : List Chunk) : assemble chunks = chunks.flatten := by
  unfold assemble
  rw [assembleLoop_eq chunks _ 0 (by simp)]
  simp

lemma readLoop_silent (opts : Options) (cl : JsNum) (chunks : List Chunk)
    (h : cl.truthy = false ∨ opts.progress = false) :
    ∀ acc : Nat, readLoop opts cl chunks acc = [] := by
  induction chunks with
  | nil => intro acc; rfl
  | cons c rest ih =>
    intro acc
    rcases h with h | h <;> simp [readLoop, h, ih]

/-- The percent value the read loop reports after `r` cumulative bytes of
an advertised total `L`: `Math.round((receivedLength / contentLength) * 100)`. -/
def pct (L : ℚ) (r : Nat) : ℤ := jsRound (((r : ℚ) / L) * 100)

lemma readLoop_progress (opts : Options) (L : ℚ) (chunks : List Chunk)
    (hprog : opts.progress = true) (hL : L ≠ 0) :
    ∀ acc : Nat, readLoop opts (.num L) chunks acc =
      (cumuls chunks acc).map (fun r => Event.progress (pct L r)) := by
  induction chunks with
  | nil => intro acc; rfl
  | cons c rest ih =>
    intro acc
    simp only [readLoop, cumuls, List.map_cons, ih]
    simp [JsNum.truthy, chunkPercent, hprog, hL, pct]

lemma readLoop_filter (opts : Options) (cl : JsNum) (chunks : List Chunk)
    (f : Event → Bool) (hf : ∀ p, f (.progress p) = false) :
    ∀ acc : Nat, (readLoop opts cl chunks acc).filter f = [] := by
  induction chunks with
  | nil => intro acc; rfl
  | cons c rest ih =>
    intro acc
    simp only [readLoop, List.filter_append, ih]
    split <;> simp [hf]

lemma cumuls_head_ge (chunks : List Chunk) (acc y : Nat)
    (h : (cumuls chunks acc).head? = some y) : acc ≤ y := by
  cases chunks with
  | nil => simp [cumuls] at h
  | cons c rest =>
    simp only [cumuls, List.head?_cons, Option.some.injEq] at h
    omega

lemma cumuls_chain (chunks : List Chunk) :
    ∀ acc : Nat, List.Chain' (· ≤ ·) (cumuls chunks acc) := by
  induction chunks with
  | nil => intro acc; simp [cumuls]
  | cons c rest ih =>
    intro acc
    rw [show cumuls (c :: rest) acc = (acc + c.length) :: cumuls rest (acc + c.length) from rfl,
      List.chain'_cons']
    exact ⟨fun y hy => cumuls_head_ge rest _ y (Option.mem_def.mp hy), ih _⟩

lemma cumuls_length (chunks : List Chunk) :
    ∀ acc : Nat, (cumuls chunks acc).length = chunks.length := by
  induction chunks with
  | nil => intro acc; rfl
  | cons c rest ih => intro acc; simp [cumuls, ih]

lemma cumuls_getLast (chunks : List Chunk) (hne : chunks ≠ []) :
    ∀ acc : Nat,
      (cumuls chunks acc).getLast? = some (acc + (chunks.map List.length).sum) := by
  induction chunks with
  | nil => exact absurd rfl hne
  | cons c rest ih =>
    intro acc
    cases rest with
    | nil => simp [cumuls]
    | cons d rest' =>
      have h2 := ih (by simp) (acc + c.length)
      have e1 : cumuls (c :: d :: rest') acc =
          (acc + c.length) :: (acc + c.length + d.length) ::
            cumuls rest' (acc + c.length + d.length) := rfl
      have e2 : cumuls (d :: rest') (acc + c.length) =
          (acc + c.length + d.length) :: cumuls rest' (acc + c.length + d.length) := rfl
      rw [e1, List.getLast?_cons_cons, ← e2, h2]
      simp only [List.map_cons, List.sum_cons, Option.some.injEq]
      omega

lemma cumuls_mem_le (chunks : List Chunk) :
    ∀ (acc r : Nat), r ∈ cumuls chunks acc → r ≤ acc + (chunks.map List.length).sum := by
  induction chunks with
  | nil => intro acc r h; simp [cumuls] at h
  | cons c rest ih =>
    intro acc r h
    simp only [cumuls, List.mem_cons] at h
    simp only [List.map_cons, List.sum_cons]
    rcases h with rfl | h
    · omega
    · have := ih (acc + c.length) r h
      omega

lemma jsRound_mono {q r : ℚ} (h : q ≤ r) : jsRound q ≤ jsRound r :=
  Int.floor_le_floor (by linarith)

lemma jsRound_100 : jsRound 100 = 100 := by
  unfold jsRound
  norm_num

lemma jsRound_nonneg {q : ℚ} (h : 0 ≤ q) : 0 ≤ jsRound q := by
  unfold jsRound
  rw [Int.le_floor]
  push_cast
  linarith

lemma jsRound_le_100 {q : ℚ} (h : q ≤ 100) : jsRound q ≤ 100 := by
  unfold jsRound
  rw [Int.floor_le_iff]
  push_cast
  linarith

lemma progressValues_map_progress (f : Nat → ℤ) (l : List Nat) :
    progressValues (l.map fun r => Event.progress (f r)) = l.map f := by
  induction l with
  | nil => rfl
  | cons a l ih =>
    simp only [List.map_cons, progressValues, List.filterMap_cons, Event.percentOf]
    rw [← progressValues, ih]

lemma progressValues_append (l1 l2 : List Event) :
    progressValues (l1 ++ l2) = progressValues l1 ++ progressValues l2 :=
  List.filterMap_append ..

lemma progressValues_catchEvents (opts : Options) (err : JsError) :
    progressValues (catchEvents opts err) = [] := by
  unfold catchEvents progressValues
  split <;> [skip; rfl]
  split <;> rfl

/-- On a response whose status check passes, the progress subtrace of
`download` is exactly what the read loop emitted. -/
lemma progressValues_download_ok (w : World) (opts : Options) (resp : Response)
    (hok : resp.ok = true) :
    progressValues (download w opts (.response resp)).2.1 =
      progressValues (readLoop opts (coerceCL resp.contentLength) resp.body.chunksOf 0) := by
  obtain ⟨ok, status, ct, cl, body⟩ := resp
  simp only at hok
  subst hok
  cases body with
  | complete chunks =>
    simp only [download, BodyOutcome.chunksOf, Bool.true_eq_false, if_false]
    rw [progressValues_append, progressValues_append, progressValues_append,
      progressValues_append]
    cases opts.started <;> cases opts.success <;> cases hblob : w.dl.blobUrl <;>
      simp [progressValues, Event.percentOf]
  | failed chunks err =>
    simp only [download, BodyOutcome.chunksOf, Bool.true_eq_false, if_false]
    rw [progressValues_append, progressValues_append, progressValues_catchEvents]
    cases opts.started <;> simp [progressValues, Event.percentOf]

/-- On a response that fails the status check, no progress is reported. -/
lemma progressValues_download_notOk (w : World) (opts : Options) (resp : Response)
    (hok : resp.ok = false) :
    progressValues (download w opts (.response resp)).2.1 = [] := by
  obtain ⟨ok, status, ct, cl, body⟩ := resp
  simp only at hok
  subst hok
  simp only [download, if_true]
  rw [progressValues_append, progressValues_catchEvents]
  cases opts.started <;> simp [progressValues, Event.percentOf]

/-- On a rejected fetch, no progress is reported. -/
lemma progressValues_download_netError (w : World) (opts : Options) (err : JsError) :
    progressValues (download w opts (.netError err)).2.1 = [] := by
  simp only [download]
  rw [progressValues_append, progressValues_catchEvents]
  cases opts.started <;> simp [progressValues, Event.percentOf]

lemma catchEvents_eq (opts : Options) (err : JsError) :
    catchEvents opts err =
      (if opts.failed then
        [if err.name = "AbortError" then Event.failed "ABORTED" "Download was stopped"
         else Event.failed "ERROR" err.message]
       else []) := by
  unfold catchEvents
  split
  · split <;> simp_all
  · rfl

lemma catch_filter_failed (opts : Options) (err : JsError) :
    (catchEvents opts err).filter Event.isFailedEv = catchEvents opts err := by
  unfold catchEvents
  split
  · split <;> rfl
  · rfl

lemma catch_filter_success (opts : Options) (err : JsError) :
    (catchEvents opts err).filter Event.isSuccessEv = [] := by
  unfold catchEvents
  split
  · split <;> rfl
  · rfl

lemma startedEvs_filter (opts : Options) (f : Event → Bool) (hf : f .started = false) :
    (if opts.started then [Event.started] else []).filter f = [] := by
  split <;> simp [hf]

lemma stop_state (d : Downloader) : (stop d).1 = ⟨none, d.isPaused, none⟩ := by
  obtain ⟨c, p, b⟩ := d
  rcases c with _ | t <;> rcases b with _ | h <;> simp [stop]

lemma stop_trace (d : Downloader) :
    (stop d).2 =
      (match d.controller with
        | some t => [Event.abortSignal t]
        | none => []) ++
      (match d.blobUrl with
        | some h => [Event.revoke h]
        | none => []) := by
  rcases hc : d.controller with _ | t <;> rcases hb : d.blobUrl with _ | h <;>
    simp [stop, hc, hb]

lemma stop_inert (p : Bool) : stop ⟨none, p, none⟩ = (⟨none, p, none⟩, []) := rfl

lemma cleanup_eq_stop_aux (d : Downloader) : cleanup d = stop d := by
  have h : (stop d).1.blobUrl = none := by rw [stop_state]
  rcases hs : stop d with ⟨d1, evs1⟩
  rw [hs] at h
  replace h : d1.blobUrl = none := h
  unfold cleanup
  rw [hs]
  simp [h]

/-! ### Claim theorems -/

/-- Claim C1: for every successful transfer, on stream completion the
session first releases any pre-existing payload handle from a prior
transfer (the revoke of the old handle precedes the creation of the new
one in the trace), then assembles the payload as the concatenation of all
received chunks in receipt order, with total byte length equal to the sum
of the chunk lengths, and returns a fresh handle (the current value of the
handle-allocation counter, distinct from every previously allocated
handle) to that payload. -/
theorem download_success_payload (w : World) (opts : Options) (resp : Response)
    (chunks : List Chunk) (hok : resp.ok = true) (hbody : resp.body = .complete chunks) :
    (download w opts (.response resp)).2.2 = .ok w.nextHandle ∧
    (download w opts (.response resp)).1.dl.blobUrl = some w.nextHandle ∧
    (download w opts (.response resp)).1.nextHandle = w.nextHandle + 1 ∧
    (download w opts (.response resp)).2.1 =
      (if opts.started then [Event.started] else []) ++
        readLoop opts (coerceCL resp.contentLength) chunks 0 ++
        (match w.dl.blobUrl with
          | some h => [Event.revoke h]
          | none => []) ++
        [Event.createHandle w.nextHandle chunks.flatten resp.contentType] ++
        (if opts.success then [Event.success w.nextHandle resp.contentType] else []) ∧
    chunks.flatten.length = (chunks.map List.length).sum := by
  obtain ⟨ok, status, ct, cl, body⟩ := resp
  simp only at hok hbody
  subst hok hbody
  refine ⟨rfl, rfl, rfl, ?_, List.length_flatten ..⟩
  simp only [download, Bool.true_eq_false, if_false, assemble_eq_flatten]

/-- Witness for C1 at a concrete transfer: prior handle 5 is revoked before
handle 7 is created over the concatenated bytes. -/
theorem download_success_payload_w :
    (download ⟨⟨none, false, some 5⟩, 2, 7⟩ ⟨true, true, true, true⟩
        (.response ⟨true, 200, some "t", some "4", .complete [[1, 2], [3, 4]]⟩)).2.2 =
      .ok 7 ∧
    (download ⟨⟨none, false, some 5⟩, 2, 7⟩ ⟨true, true, true, true⟩
        (.response ⟨true, 200, some "t", some "4", .complete [[1, 2], [3, 4]]⟩)).1.dl.blobUrl =
      some 7 ∧
    (download ⟨⟨none, false, some 5⟩, 2, 7⟩ ⟨true, true, true, true⟩
        (.response ⟨true, 200, some "t", some "4", .complete [[1, 2], [3, 4]]⟩)).1.nextHandle =
      8 ∧
    (download ⟨⟨none, false, some 5⟩, 2, 7⟩ ⟨true, true, true, true⟩
        (.response ⟨true, 200, some "t", some "4", .complete [[1, 2], [3, 4]]⟩)).2.1 =
      [Event.started, Event.progress 50, Event.progress 100, Event.revoke 5,
        Event.createHandle 7 [1, 2, 3, 4] (some "t"), Event.success 7 (some "t")] ∧
    ([[1, 2], [3, 4]] : List Chunk).flatten.length =
      (([[1, 2], [3, 4]] : List Chunk).map List.length).sum := by
  obtain ⟨h1, h2, h3, h4, h5⟩ :=
    download_success_payload ⟨⟨none, false, some 5⟩, 2, 7⟩ ⟨true, true, true, true⟩
      ⟨true, 200, some "t", some "4", .complete [[1, 2], [3, 4]]⟩ [[1, 2], [3, 4]] rfl rfl
  refine ⟨h1, h2, h3, ?_, h5⟩
  rw [h4]
  simp only
  rw [show coerceCL (some "4") = JsNum.num 4 from rfl,
    readLoop_progress _ 4 _ rfl (by norm_num) 0]
  norm_num [cumuls, pct, jsRound]

/-- Claim C2: for every transfer with an advertised total length `L` whose
cumulative received-byte sequence is strictly increasing and reaches
exactly `L`, the progress callback is invoked once after each chunk with
`round(ri/L*100)` in chunk-arrival order; the reported values are
non-decreasing and the final reported value is 100. -/
theorem download_progress_reporting (w : World) (opts : Options) (resp : Response)
    (chunks : List Chunk) (L : ℚ)
    (hok : resp.ok = true) (hbody : resp.body = .complete chunks)
    (hprog : opts.progress = true)
    (hcl : coerceCL resp.contentLength = .num L) (hL : 0 < L)
    (hpos : ∀ c ∈ chunks, c ≠ ([] : List Nat))
    (hne : chunks ≠ [])
    (hsum : (((chunks.map List.length).sum : ℕ) : ℚ) = L) :
    progressValues (download w opts (.response resp)).2.1 =
      (cumuls chunks 0).map (pct L) ∧
    (progressValues (download w opts (.response resp)).2.1).length = chunks.length ∧
    List.Chain' (· ≤ ·) (progressValues (download w opts (.response resp)).2.1) ∧
    (progressValues (download w opts (.response resp)).2.1).getLast? = some 100 := by
  have hbc : resp.body.chunksOf = chunks := by rw [hbody]; rfl
  have hmain : progressValues (download w opts (.response resp)).2.1 =
      (cumuls chunks 0).map (pct L) := by
    rw [progressValues_download_ok w opts resp hok, hbc, hcl,
      readLoop_progress opts L chunks hprog (ne_of_gt hL) 0,
      progressValues_map_progress]
  refine ⟨hmain, ?_, ?_, ?_⟩
  · rw [hmain]
    simp [cumuls_length]
  · rw [hmain, List.chain'_map]
    refine (cumuls_chain chunks 0).imp ?_
    intro a b hab
    refine jsRound_mono ?_
    have h1 : (a : ℚ) ≤ b := Nat.cast_le.mpr hab
    have h2 : (a : ℚ) / L ≤ (b : ℚ) / L := by gcongr
    linarith
  · rw [hmain, List.getLast?_map, cumuls_getLast chunks hne 0]
    have hval : pct L (0 + (chunks.map List.length).sum) = 100 := by
      unfold pct
      rw [Nat.zero_add, hsum, div_self (ne_of_gt hL), one_mul, jsRound_100]
    simp only [Option.map_some']
    rw [hval]

/-- Witness for C2: a 4-byte resource advertising Content-Length 4,
delivered as two 2-byte chunks, reports `[50, 100]`. -/
theorem download_progress_reporting_w :
    progressValues (download ⟨⟨none, false, none⟩, 0, 0⟩ ⟨false, true, false, false⟩
        (.response ⟨true, 200, none, some "4", .complete [[1, 2], [3, 4]]⟩)).2.1 =
      [50, 100] ∧
    List.Chain' (· ≤ ·) ([50, 100] : List ℤ) ∧
    ([50, 100] : List ℤ).getLast? = some 100 := by
  obtain ⟨h1, h2, h3, h4⟩ := download_progress_reporting ⟨⟨none, false, none⟩, 0, 0⟩
    ⟨false, true, false, false⟩ ⟨true, 200, none, some "4", .complete [[1, 2], [3, 4]]⟩
    [[1, 2], [3, 4]] 4 rfl rfl rfl rfl (by norm_num) (by decide) (by decide) (by norm_num)
  have he : (cumuls [[1, 2], [3, 4]] 0).map (pct 4) =
      [50, 100] := by
    norm_num [cumuls, pct, jsRound]
  exact ⟨h1.trans he, by norm_num [List.chain'_cons], by simp⟩

/-- Claim C3: every failure path (fetch rejection, non-success HTTP
status, explicit cancellation — which surfaces as an `AbortError`-named
rejection) invokes the failed callback, when provided, exactly once: with
kind `ABORTED` exactly when the error is the cancellation error and kind
`ERROR` otherwise, a non-success status producing the message
`HTTP error! status: <code>`; the failure is rethrown to the caller, and
no success callback fires.  On the success path no failed callback fires
and the success callback fires at most once, so at most one of the two
callbacks fires per transfer attempt. -/
theorem download_failure_reporting (w : World) (opts : Options) (fetch : FetchOutcome) :
    (match failureOf fetch with
      | some err =>
        (download w opts fetch).2.2 = .error err ∧
        (download w opts fetch).2.1.filter Event.isFailedEv =
          (if opts.failed then
            [if err.name = "AbortError" then Event.failed "ABORTED" "Download was stopped"
             else Event.failed "ERROR" err.message]
           else []) ∧
        (download w opts fetch).2.1.filter Event.isSuccessEv = []
      | none =>
        (download w opts fetch).2.1.filter Event.isFailedEv = [] ∧
        ((download w opts fetch).2.1.filter Event.isSuccessEv).length ≤ 1) := by
  have hfailp : ∀ p, Event.isFailedEv (Event.progress p) = false := fun _ => rfl
  have hsuccp : ∀ p, Event.isSuccessEv (Event.progress p) = false := fun _ => rfl
  cases fetch with
  | netError err =>
    refine ⟨rfl, ?_, ?_⟩
    · show ((if opts.started then [Event.started] else []) ++
          catchEvents opts err).filter Event.isFailedEv = _
      rw [List.filter_append, startedEvs_filter opts Event.isFailedEv rfl,
        catch_filter_failed, catchEvents_eq, List.nil_append]
    · show ((if opts.started then [Event.started] else []) ++
          catchEvents opts err).filter Event.isSuccessEv = []
      rw [List.filter_append, startedEvs_filter opts Event.isSuccessEv rfl,
        catch_filter_success, List.append_nil]
  | response resp =>
    obtain ⟨ok, status, ct, cl, body⟩ := resp
    cases ok with
    | false =>
      refine ⟨rfl, ?_, ?_⟩
      · show ((if opts.started then [Event.started] else []) ++
            catchEvents opts ⟨"Error", "HTTP error! status: " ++ toString status⟩).filter
              Event.isFailedEv = _
        rw [List.filter_append, startedEvs_filter opts Event.isFailedEv rfl,
          catch_filter_failed, catchEvents_eq, List.nil_append]
      · show ((if opts.started then [Event.started] else []) ++
            catchEvents opts ⟨"Error", "HTTP error! status: " ++ toString status⟩).filter
              Event.isSuccessEv = []
        rw [List.filter_append, startedEvs_filter opts Event.isSuccessEv rfl,
          catch_filter_success, List.append_nil]
    | true =>
      cases body with
      | failed chunks err =>
        refine ⟨rfl, ?_, ?_⟩
        · show ((if opts.started then [Event.started] else []) ++
              readLoop opts (coerceCL cl) chunks 0 ++
              catchEvents opts err).filter Event.isFailedEv = _
          rw [List.filter_append, List.filter_append,
            startedEvs_filter opts Event.isFailedEv rfl,
            readLoop_filter opts _ chunks _ hfailp 0,
            catch_filter_failed, catchEvents_eq]
          simp
        · show ((if opts.started then [Event.started] else []) ++
              readLoop opts (coerceCL cl) chunks 0 ++
              catchEvents opts err).filter Event.isSuccessEv = []
          rw [List.filter_append, List.filter_append,
            startedEvs_filter opts Event.isSuccessEv rfl,
            readLoop_filter opts _ chunks _ hsuccp 0,
            catch_filter_success]
          simp
      | complete chunks =>
        refine ⟨?_, ?_⟩
        · show ((if opts.started then [Event.started] else []) ++
              readLoop opts (coerceCL cl) chunks 0 ++
              (match w.dl.blobUrl with
                | some h => [Event.revoke h]
                | none => []) ++
              [Event.createHandle w.nextHandle (assemble chunks) ct] ++
              (if opts.success then [Event.success w.nextHandle ct] else [])).filter
                Event.isFailedEv = []
          rw [List.filter_append, List.filter_append, List.filter_append, List.filter_append,
            startedEvs_filter opts Event.isFailedEv rfl,
            readLoop_filter opts _ chunks _ hfailp 0]
          cases hb : w.dl.blobUrl <;> cases hs : opts.success <;>
            simp [Event.isFailedEv, hb, hs]
        · show (((if opts.started then [Event.started] else []) ++
              readLoop opts (coerceCL cl) chunks 0 ++
              (match w.dl.blobUrl with
                | some h => [Event.revoke h]
                | none => []) ++
              [Event.createHandle w.nextHandle (assemble chunks) ct] ++
              (if opts.success then [Event.success w.nextHandle ct] else [])).filter
                Event.isSuccessEv).length ≤ 1
          rw [List.filter_append, List.filter_append, List.filter_append, List.filter_append,
            startedEvs_filter opts Event.isSuccessEv rfl,
            readLoop_filter opts _ chunks _ hsuccp 0]
          cases hb : w.dl.blobUrl <;> cases hs : opts.success <;>
            simp [Event.isSuccessEv, hb, hs]

/-- Counterexample to claim C4: a successful transfer ends with the
cancellation token still set — `download` never clears `this.controller`
on either the success or the failure path, so the token does not exist
"only while a transfer is active". -/
theorem controller_survives_transfer_end :
    (download ⟨⟨none, false, none⟩, 0, 0⟩ ⟨false, false, false, false⟩
        (.response ⟨true, 200, none, none, .complete []⟩)).2.2 = .ok 0 ∧
    (download ⟨⟨none, false, none⟩, 0, 0⟩ ⟨false, false, false, false⟩
        (.response ⟨true, 200, none, none, .complete []⟩)).1.dl.controller = some 0 :=
  ⟨rfl, rfl⟩

/-- Claim C4 (amended): a fresh cancellation token is allocated at
transfer start, but `download` leaves it set when the transfer ends,
whether in success or in failure; it is destroyed (nulled) only by an
explicit `stop` (or `cleanup`). -/
theorem controller_lifecycle (w : World) (opts : Options) (fetch : FetchOutcome)
    (d : Downloader) :
    (download w opts fetch).1.dl.controller = some w.nextToken ∧
    (download w opts fetch).1.nextToken = w.nextToken + 1 ∧
    (stop d).1.controller = none ∧
    (cleanup d).1.controller = none := by
  have h1 : ∀ fetch : FetchOutcome,
      (download w opts fetch).1.dl.controller = some w.nextToken ∧
      (download w opts fetch).1.nextToken = w.nextToken + 1 := by
    intro fetch
    cases fetch with
    | netError err => exact ⟨rfl, rfl⟩
    | response resp =>
      obtain ⟨ok, status, ct, cl, body⟩ := resp
      cases ok <;> cases body <;> exact ⟨rfl, rfl⟩
  refine ⟨(h1 fetch).1, (h1 fetch).2, ?_, ?_⟩
  · rw [stop_state]
  · rw [cleanup_eq_stop_aux, stop_state]

/-- Claim C5: `stop` cancels the active transfer when one exists (signals
the stored token, then clears it) and releases the current payload handle
when one exists; afterwards both fields are null and `isPaused` is
untouched; on a session with neither it is a no-op (same state, no events,
hence no exception and no callback); and it is idempotent: a second call
returns the same state and emits no events. -/
theorem stop_spec (d : Downloader) :
    (stop d).1.controller = none ∧
    (stop d).1.blobUrl = none ∧
    (stop d).1.isPaused = d.isPaused ∧
    (stop d).2 =
      (match d.controller with
        | some t => [Event.abortSignal t]
        | none => []) ++
      (match d.blobUrl with
        | some h => [Event.revoke h]
        | none => []) ∧
    (∀ p : Bool, stop ⟨none, p, none⟩ = (⟨none, p, none⟩, [])) ∧
    stop (stop d).1 = ((stop d).1, []) := by
  refine ⟨by rw [stop_state], by rw [stop_state], by rw [stop_state], stop_trace d,
    stop_inert, ?_⟩
  rw [stop_state]
  exact stop_inert d.isPaused

/-- Claim C6: `cleanup` has exactly the same effect as `stop`, on the
state and on the emitted events: its second, defensive release of the
payload handle takes the vacuous branch because `stop` has already nulled
the handle; and `cleanup` is idempotent. -/
theorem cleanup_spec (d : Downloader) :
    cleanup d = stop d ∧
    (stop d).1.blobUrl = none ∧
    cleanup (cleanup d).1 = ((cleanup d).1, []) := by
  refine ⟨cleanup_eq_stop_aux d, by rw [stop_state], ?_⟩
  rw [cleanup_eq_stop_aux, cleanup_eq_stop_aux, stop_state]
  exact stop_inert d.isPaused

/-- Claim C7: on every failed transfer (fetch rejection, non-success
status, cancellation) no payload handle is created or released: the
session's handle and the handle-allocation counter are unchanged and the
trace contains no create and no revoke events. -/
theorem download_failure_no_handle (w : World) (opts : Options) (fetch : FetchOutcome)
    (err : JsError) (hfail : failureOf fetch = some err) :
    (download w opts fetch).1.dl.blobUrl = w.dl.blobUrl ∧
    (download w opts fetch).1.nextHandle = w.nextHandle ∧
    (download w opts fetch).2.1.filter Event.isCreateEv = [] ∧
    (download w opts fetch).2.1.filter Event.isRevokeEv = [] := by
  have hcreatep : ∀ p, Event.isCreateEv (Event.progress p) = false := fun _ => rfl
  have hrevokep : ∀ p, Event.isRevokeEv (Event.progress p) = false := fun _ => rfl
  have hcatch : ∀ f : Event → Bool, (∀ k m, f (Event.failed k m) = false) →
      ∀ e : JsError, (catchEvents opts e).filter f = [] := by
    intro f hf e
    unfold catchEvents
    split
    · split <;> simp [hf]
    · rfl
  cases fetch with
  | netError err' =>
    refine ⟨rfl, rfl, ?_, ?_⟩
    · show ((if opts.started then [Event.started] else []) ++
          catchEvents opts err').filter Event.isCreateEv = []
      rw [List.filter_append, startedEvs_filter opts Event.isCreateEv rfl,
        hcatch Event.isCreateEv (fun _ _ => rfl) err']
      rfl
    · show ((if opts.started then [Event.started] else []) ++
          catchEvents opts err').filter Event.isRevokeEv = []
      rw [List.filter_append, startedEvs_filter opts Event.isRevokeEv rfl,
        hcatch Event.isRevokeEv (fun _ _ => rfl) err']
      rfl
  | response resp =>
    obtain ⟨ok, status, ct, cl, body⟩ := resp
    cases ok with
    | false =>
      refine ⟨rfl, rfl, ?_, ?_⟩
      · show ((if opts.started then [Event.started] else []) ++
            catchEvents opts ⟨"Error", "HTTP error! status: " ++ toString status⟩).filter
              Event.isCreateEv = []
        rw [List.filter_append, startedEvs_filter opts Event.isCreateEv rfl,
          hcatch Event.isCreateEv (fun _ _ => rfl) _]
        rfl
      · show ((if opts.started then [Event.started] else []) ++
            catchEvents opts ⟨"Error", "HTTP error! status: " ++ toString status⟩).filter
              Event.isRevokeEv = []
        rw [List.filter_append, startedEvs_filter opts Event.isRevokeEv rfl,
          hcatch Event.isRevokeEv (fun _ _ => rfl) _]
        rfl
    | true =>
      cases body with
      | complete chunks => simp [failureOf] at hfail
      | failed chunks err' =>
        refine ⟨rfl, rfl, ?_, ?_⟩
        · show ((if opts.started then [Event.started] else []) ++
              readLoop opts (coerceCL cl) chunks 0 ++
              catchEvents opts err').filter Event.isCreateEv = []
          rw [List.filter_append, List.filter_append,
            startedEvs_filter opts Event.isCreateEv rfl,
            readLoop_filter opts _ chunks _ hcreatep 0,
            hcatch Event.isCreateEv (fun _ _ => rfl) err']
          rfl
        · show ((if opts.started then [Event.started] else []) ++
              readLoop opts (coerceCL cl) chunks 0 ++
              catchEvents opts err').filter Event.isRevokeEv = []
          rw [List.filter_append, List.filter_append,
            startedEvs_filter opts Event.isRevokeEv rfl,
            readLoop_filter opts _ chunks _ hrevokep 0,
            hcatch Event.isRevokeEv (fun _ _ => rfl) err']
          rfl

/-- Witness for C7 at a concrete failed transfer: a fetch rejection leaves
the prior handle 3 in place and allocates nothing. -/
theorem download_failure_no_handle_w :
    (download ⟨⟨none, false, some 3⟩, 1, 5⟩ ⟨true, false, false, true⟩
        (.netError ⟨"TypeError", "Failed to fetch"⟩)).1.dl.blobUrl = some 3 ∧
    (download ⟨⟨none, false, some 3⟩, 1, 5⟩ ⟨true, false, false, true⟩
        (.netError ⟨"TypeError", "Failed to fetch"⟩)).1.nextHandle = 5 ∧
    (download ⟨⟨none, false, some 3⟩, 1, 5⟩ ⟨true, false, false, true⟩
        (.netError ⟨"TypeError", "Failed to fetch"⟩)).2.1.filter Event.isCreateEv = [] ∧
    (download ⟨⟨none, false, some 3⟩, 1, 5⟩ ⟨true, false, false, true⟩
        (.netError ⟨"TypeError", "Failed to fetch"⟩)).2.1.filter Event.isRevokeEv = [] :=
  download_failure_no_handle ⟨⟨none, false, some 3⟩, 1, 5⟩ ⟨true, false, false, true⟩
    (.netError ⟨"TypeError", "Failed to fetch"⟩) ⟨"TypeError", "Failed to fetch"⟩ rfl

/-- Counterexample to claim C8: with Content-Length advertised as "1" but
2 bytes delivered, the progress callback receives 200, which is not
between 0 and 100. -/
theorem progress_value_exceeds_100 :
    progressValues (download ⟨⟨none, false, none⟩, 0, 0⟩ ⟨false, true, false, false⟩
        (.response ⟨true, 200, none, some "1", .complete [[9, 9]]⟩)).2.1 = [200] := by
  rw [progressValues_download_ok _ _ _ rfl]
  show progressValues
    (readLoop ⟨false, true, false, false⟩ (coerceCL (some "1")) [[9, 9]] 0) = [200]
  rw [show coerceCL (some "1") = JsNum.num 1 from rfl,
    readLoop_progress _ 1 _ rfl (by norm_num) 0, progressValues_map_progress]
  norm_num [cumuls, pct, jsRound]

/-- Claim C8 (amended): every value passed to the progress callback is an
integer, and it lies between 0 and 100 inclusive provided the coerced
advertised total `L` is positive and the bytes delivered in total do not
exceed `L`; when the stream delivers more bytes than the advertised
total, the reported value exceeds 100 (counterexample: total "1", two
bytes delivered, reported value 200). -/
theorem progress_values_in_range (w : World) (opts : Options) (resp : Response) (L : ℚ)
    (hcl : coerceCL resp.contentLength = .num L) (hL : 0 < L)
    (hbound : (((resp.body.chunksOf.map List.length).sum : ℕ) : ℚ) ≤ L) :
    ∀ p ∈ progressValues (download w opts (.response resp)).2.1, 0 ≤ p ∧ p ≤ 100 := by
  rcases hok : resp.ok with _ | _
  · rw [progressValues_download_notOk w opts resp hok]
    intro p hp
    simp at hp
  · rw [progressValues_download_ok w opts resp hok]
    rcases hprog : opts.progress with _ | _
    · rw [readLoop_silent opts _ _ (Or.inr hprog) 0]
      intro p hp
      simp [progressValues] at hp
    · rw [hcl, readLoop_progress opts L _ hprog (ne_of_gt hL) 0,
        progressValues_map_progress]
      intro p hp
      obtain ⟨r, hr, rfl⟩ := List.mem_map.mp hp
      have hrle : r ≤ (resp.body.chunksOf.map List.length).sum := by
        have := cumuls_mem_le _ 0 r hr
        omega
      have hrL : (r : ℚ) ≤ L := le_trans (by exact_mod_cast hrle) hbound
      constructor
      · refine jsRound_nonneg ?_
        positivity
      · refine jsRound_le_100 ?_
        have hdiv : (r : ℚ) / L ≤ 1 := (div_le_one hL).mpr hrL
        linarith

/-- Witness for the amended C8: in a well-behaved transfer (4 bytes
against an advertised total of 4) the value 100 is reported and the bound
holds for it. -/
theorem progress_values_in_range_w : 0 ≤ (100 : ℤ) ∧ (100 : ℤ) ≤ 100 := by
  refine progress_values_in_range ⟨⟨none, false, none⟩, 0, 0⟩ ⟨false, true, false, false⟩
    ⟨true, 200, none, some "4", .complete [[1, 2], [3, 4]]⟩ 4 rfl (by norm_num)
    (by norm_num [BodyOutcome.chunksOf]) 100 ?_
  rw [progressValues_download_ok _ _ _ rfl]
  show (100 : ℤ) ∈ progressValues
    (readLoop ⟨false, true, false, false⟩ (coerceCL (some "4")) [[1, 2], [3, 4]] 0)
  rw [show coerceCL (some "4") = JsNum.num 4 from rfl,
    readLoop_progress _ 4 _ rfl (by norm_num) 0, progressValues_map_progress]
  norm_num [cumuls, pct, jsRound]

/-- Claim C9: with no advertised total length (absent Content-Length
header, which coerces to the falsy 0) the progress callback is never
invoked, whatever the chunks and however the transfer ends. -/
theorem no_total_no_progress (w : World) (opts : Options) (resp : Response)
    (hcl : resp.contentLength = none) :
    progressValues (download w opts (.response resp)).2.1 = [] := by
  rcases hok : resp.ok with _ | _
  · exact progressValues_download_notOk w opts resp hok
  · rw [progressValues_download_ok w opts resp hok, hcl,
      readLoop_silent opts (coerceCL none) _ (Or.inl rfl) 0]
    rfl

/-- Witness for C9: three chunks arrive with no Content-Length header and
no progress callback fires. -/
theorem no_total_no_progress_w :
    progressValues (download ⟨⟨none, false, none⟩, 0, 0⟩ ⟨true, true, true, true⟩
        (.response ⟨true, 200, some "t", none, .complete [[1], [2], [3]]⟩)).2.1 = [] :=
  no_total_no_progress ⟨⟨none, false, none⟩, 0, 0⟩ ⟨true, true, true, true⟩
    ⟨true, 200, some "t", none, .complete [[1], [2], [3]]⟩ rfl

/-- Claim C10: a Content-Length header that is present but "0", or not
parseable as a number (so the coercion yields NaN), behaves exactly like
an absent header: `download` behaves identically and the progress
callback is never invoked even as chunks arrive. -/
theorem unparseable_total_like_absent (w : World) (opts : Options) (resp : Response)
    (s : String) (hcl : resp.contentLength = some s)
    (hs : s = "0" ∨ coerceCL (some s) = .nan) :
    download w opts (.response resp) =
      download w opts (.response { resp with contentLength := none }) ∧
    progressValues (download w opts (.response resp)).2.1 = [] := by
  have htr : (coerceCL (some s)).truthy = false := by
    rcases hs with rfl | h
    · rfl
    · rw [h]
      rfl
  have key : ∀ (chunks : List Chunk) (acc : Nat),
      readLoop opts (coerceCL (some s)) chunks acc =
        readLoop opts (coerceCL none) chunks acc := by
    intro chunks acc
    rw [readLoop_silent opts (coerceCL (some s)) chunks (Or.inl htr) acc,
      readLoop_silent opts (coerceCL none) chunks (Or.inl rfl) acc]
  obtain ⟨ok, status, ct, cl, body⟩ := resp
  simp only at hcl
  subst hcl
  constructor
  · cases ok with
    | false => rfl
    | true =>
      cases body with
      | complete chunks =>
        simp only [download]
        rw [key chunks 0]
      | failed chunks err =>
        simp only [download]
        rw [key chunks 0]
  · cases ok with
    | false =>
      exact progressValues_download_notOk w opts ⟨false, status, ct, some s, body⟩ rfl
    | true =>
      rw [progressValues_download_ok w opts ⟨true, status, ct, some s, body⟩ rfl]
      show progressValues (readLoop opts (coerceCL (some s)) body.chunksOf 0) = []
      rw [readLoop_silent opts _ _ (Or.inl htr) 0]
      rfl

/-- Witness for C10: an unparseable Content-Length header "abc" with two
chunks delivered behaves exactly like an absent header and reports no
progress. -/
theorem unparseable_total_like_absent_w :
    download ⟨⟨none, false, none⟩, 0, 0⟩ ⟨true, true, true, true⟩
        (.response ⟨true, 200, some "t", some "abc", .complete [[1], [2]]⟩) =
      download ⟨⟨none, false, none⟩, 0, 0⟩ ⟨true, true, true, true⟩
        (.response ⟨true, 200, some "t", none, .complete [[1], [2]]⟩) ∧
    progressValues (download ⟨⟨none, false, none⟩, 0, 0⟩ ⟨true, true, true, true⟩
        (.response ⟨true, 200, some "t", some "abc", .complete [[1], [2]]⟩)).2.1 = [] :=
  unparseable_total_like_absent ⟨⟨none, false, none⟩, 0, 0⟩ ⟨true, true, true, true⟩
    ⟨true, 200, some "t", some "abc", .complete [[1], [2]]⟩ "abc" rfl (Or.inr rfl)

end DownloaderJS
